import Mathlib

/-!
Verification of the `migration` package's Kubernetes client facade
(`migration/client.go`).

The Go code is a thin layer over a `kubernetes.Interface`. Every operation is
a sequence of calls to that backend. We embed the backend as an oracle: each
category of call (fetch of the current state, submission of an update, and so
on) is a function from the call's index (how many calls of that category this
operation has already made) and its arguments to a result. The operations of
`client.go` are then translated one-to-one into pure Lean functions over
these oracles. The update operations additionally return the list of backend
interactions they performed (the trace), which is the observable behaviour of
the effectful Go code, and the unbounded `for` loops are driven by an
explicit fuel parameter: `Outcome.fuelOut` means the Go loop would still be
running after `fuel` iterations.

Go's errors are values classified by `apierrors.IsConflict`,
`apierrors.IsNotFound` and `apierrors.IsAlreadyExists`; wrapping with
`errors.Wrapf` keeps the cause (both libraries support unwrapping), which the
`KError.wrapped` constructor models.
-/

/-- Classified backend errors, mirroring `apierrors` reasons plus
`errors.Wrapf` wrapping (`wrapped ctx cause`). -/
inductive KError : Type where
  | notFound (msg : String)
  | alreadyExists (msg : String)
  | conflict (msg : String)
  | other (msg : String)
  | wrapped (ctx : String) (cause : KError)
deriving DecidableEq

/-- `apierrors.IsConflict`, which unwraps wrapped errors. -/
def KError.isConflict : KError → Bool
  | .conflict _ => true
  | .wrapped _ cause => cause.isConflict
  | _ => false

/-- `apierrors.IsNotFound`, which unwraps wrapped errors. -/
def KError.isNotFound : KError → Bool
  | .notFound _ => true
  | .wrapped _ cause => cause.isNotFound
  | _ => false

/-- `apierrors.IsAlreadyExists`, which unwraps wrapped errors. -/
def KError.isAlreadyExists : KError → Bool
  | .alreadyExists _ => true
  | .wrapped _ cause => cause.isAlreadyExists
  | _ => false

/-- `batchv1.Job`: name, namespace (`ns`), resource version, and `labels`
standing for all remaining payload fields. -/
structure Job : Type where
  name : String
  ns : String
  resourceVersion : String
  labels : List (String × String)
deriving DecidableEq

/-- `corev1.Pod` (only its identity matters to this layer). -/
structure Pod : Type where
  name : String
  ns : String
  resourceVersion : String
  labels : List (String × String)
deriving DecidableEq

/-- `corev1.PersistentVolume` (cluster-scoped: no namespace). -/
structure PersistentVolume : Type where
  name : String
  resourceVersion : String
  labels : List (String × String)
deriving DecidableEq

/-- `corev1.PersistentVolumeClaim` (namespace-scoped). -/
structure PersistentVolumeClaim : Type where
  name : String
  ns : String
  resourceVersion : String
  labels : List (String × String)
deriving DecidableEq

/-- `corev1.Namespace` (cluster-scoped). -/
structure Namespace : Type where
  name : String
  resourceVersion : String
  labels : List (String × String)
deriving DecidableEq

/-- `corev1.PodList` (the layer returns its `Items`). -/
structure PodList : Type where
  items : List Pod
deriving DecidableEq

/-- `corev1.PersistentVolumeClaimList`. -/
structure PersistentVolumeClaimList : Type where
  items : List PersistentVolumeClaim
deriving DecidableEq

/-- `corev1.NamespaceList`. -/
structure NamespaceList : Type where
  items : List Namespace
deriving DecidableEq

instance exceptDecEq {α β : Type} [DecidableEq α] [DecidableEq β] :
    DecidableEq (Except α β) := fun x y =>
  match x, y with
  | .ok a, .ok b =>
    if h : a = b then isTrue (by rw [h]) else isFalse (by intro he; cases he; exact h rfl)
  | .error a, .error b =>
    if h : a = b then isTrue (by rw [h]) else isFalse (by intro he; cases he; exact h rfl)
  | .ok _, .error _ => isFalse (by intro he; cases he)
  | .error _, .ok _ => isFalse (by intro he; cases he)

/-- One backend interaction of an update operation: a fetch of the current
state keyed by `κ` (name, or namespace-and-name), or the submission of an
entity to the backend's `Update`. Each records the backend's response. -/
inductive Event (κ ε : Type) : Type where
  | fetch (key : κ) (result : Except KError ε)
  | submit (sent : ε) (result : Except KError ε)
deriving DecidableEq

/-- Result of an update operation: success, a surfaced error, or `fuelOut`
when the Go `for` loop would still be running after the given fuel. -/
inductive Outcome (ε : Type) : Type where
  | ok (val : ε)
  | err (e : KError)
  | fuelOut
deriving DecidableEq

def Event.isFetch {κ ε : Type} : Event κ ε → Bool
  | .fetch _ _ => true
  | _ => false

def Event.isSubmit {κ ε : Type} : Event κ ε → Bool
  | .submit _ _ => true
  | _ => false

/-- Number of fetches in a trace. -/
def fetchCount {κ ε : Type} (tr : List (Event κ ε)) : Nat :=
  (tr.filter Event.isFetch).length

/-- Number of update submissions in a trace. -/
def submitCount {κ ε : Type} (tr : List (Event κ ε)) : Nat :=
  (tr.filter Event.isSubmit).length

/-- The entities submitted to the backend's `Update`, in order. -/
def submittedList {κ ε : Type} (tr : List (Event κ ε)) : List ε :=
  tr.filterMap fun ev =>
    match ev with
    | .submit sent _ => some sent
    | _ => none

/-- The `for` loop shared verbatim (modulo resource kind) by `UpdatePV`
(client.go:93-109), `UpdatePVC` (client.go:163-179) and `UpdateNamespace`
(client.go:208-224): submit the current (fetched, mutated) entity; on
success return it; on a non-conflict error return that error; on a conflict
re-fetch by the current entity's key, abort on fetch failure, otherwise
apply `updateFunc` to the fresh copy and loop. `g i k` is the backend's
response to the operation's `i`-th Get call, `u i x` its response to the
`i`-th Update call. -/
def retryLoop {κ ε : Type} (g : Nat → κ → Except KError ε)
    (u : Nat → ε → Except KError ε) (key : ε → κ) (updateFunc : ε → ε)
    (cur : ε) (gi ui fuel : Nat) : Outcome ε × List (Event κ ε) :=
  match fuel with
  | 0 => (Outcome.fuelOut, [])
  | fuel' + 1 =>
    match u ui cur with
    | Except.ok updated => (Outcome.ok updated, [Event.submit cur (Except.ok updated)])
    | Except.error e =>
      if e.isConflict then
        match g gi (key cur) with
        | Except.error e2 =>
          (Outcome.err e2,
            [Event.submit cur (Except.error e), Event.fetch (key cur) (Except.error e2)])
        | Except.ok nxt =>
          let r := retryLoop g u key updateFunc (updateFunc nxt) (gi + 1) (ui + 1) fuel'
          (r.1, Event.submit cur (Except.error e) :: Event.fetch (key cur) (Except.ok nxt) :: r.2)
      else (Outcome.err e, [Event.submit cur (Except.error e)])

/-- The whole update-with-retry pattern (client.go:83-110, 152-180, 198-225):
fetch the current state by the key of the caller's entity, wrapping a fetch
failure with the literal context string `could not get PVC to update` used by
all three Go functions; apply `updateFunc` to the fetched copy; run the retry
loop. The caller's entity is used only through `key ent0`. -/
def updateWithRetry {κ ε : Type} (g : Nat → κ → Except KError ε)
    (u : Nat → ε → Except KError ε) (key : ε → κ) (updateFunc : ε → ε)
    (ent0 : ε) (fuel : Nat) : Outcome ε × List (Event κ ε) :=
  match g 0 (key ent0) with
  | Except.error e =>
    (Outcome.err (KError.wrapped "could not get PVC to update" e),
      [Event.fetch (key ent0) (Except.error e)])
  | Except.ok ent1 =>
    let r := retryLoop g u key updateFunc (updateFunc ent1) 1 0 fuel
    (r.1, Event.fetch (key ent0) (Except.ok ent1) :: r.2)

/-- Backend oracle for `UpdatePV`: `PersistentVolumes().Get` keyed by name,
and `PersistentVolumes().Update`, each indexed by call count. -/
structure PVBackend : Type where
  get : Nat → String → Except KError PersistentVolume
  update : Nat → PersistentVolume → Except KError PersistentVolume

/-- `UpdatePV` (client.go:83-110). -/
def UpdatePV (b : PVBackend) (pv : PersistentVolume)
    (updateFunc : PersistentVolume → PersistentVolume) (fuel : Nat) :
    Outcome PersistentVolume × List (Event String PersistentVolume) :=
  updateWithRetry b.get b.update PersistentVolume.name updateFunc pv fuel

/-- Backend oracle for `UpdatePVC`: Get keyed by (namespace, name). -/
structure PVCBackend : Type where
  get : Nat → String × String → Except KError PersistentVolumeClaim
  update : Nat → PersistentVolumeClaim → Except KError PersistentVolumeClaim

/-- `UpdatePVC` (client.go:152-180). The Get calls use the current entity's
`pvc.Namespace` and `pvc.Name`; the Update call receives the entity itself
(which carries its namespace). -/
def UpdatePVC (b : PVCBackend) (pvc : PersistentVolumeClaim)
    (updateFunc : PersistentVolumeClaim → PersistentVolumeClaim) (fuel : Nat) :
    Outcome PersistentVolumeClaim × List (Event (String × String) PersistentVolumeClaim) :=
  updateWithRetry b.get b.update (fun p => (p.ns, p.name)) updateFunc pvc fuel

/-- Backend oracle for `UpdateNamespace`: Get keyed by name. -/
structure NamespaceBackend : Type where
  get : Nat → String → Except KError Namespace
  update : Nat → Namespace → Except KError Namespace

/-- `UpdateNamespace` (client.go:198-225). -/
def UpdateNamespace (b : NamespaceBackend) (ns0 : Namespace)
    (updateFunc : Namespace → Namespace) (fuel : Nat) :
    Outcome Namespace × List (Event String Namespace) :=
  updateWithRetry b.get b.update Namespace.name updateFunc ns0 fuel

/-- Backend oracle for `CreateJob`: `Jobs(ns).Create` and `Jobs(ns).Get`.
Go's `Create` returns a value-and-error pair and `client.go` reads the value
even on the error path, so `create` returns `Job × Option KError`; `get`
takes the namespace and name. -/
structure JobBackend : Type where
  create : Job → Job × Option KError
  get : String → String → Except KError Job

/-- `CreateJob` (client.go:28-41): create; on a non-AlreadyExists error wrap
with `could not create Job` and fail; otherwise re-fetch using the namespace
and name of the value the backend's Create returned (the Go code reassigns
`job` to Create's return value before reading `job.Namespace`/`job.Name`). -/
def CreateJob (b : JobBackend) (job0 : Job) : Except KError Job :=
  let cr := b.create job0
  match cr.2 with
  | some e =>
    if ¬ e.isAlreadyExists then Except.error (KError.wrapped "could not create Job" e)
    else
      match b.get cr.1.ns cr.1.name with
      | Except.error e2 => Except.error e2
      | Except.ok j => Except.ok j
  | none =>
    match b.get cr.1.ns cr.1.name with
    | Except.error e2 => Except.error e2
    | Except.ok j => Except.ok j

/-- Backend oracle for `CreatePVC`, shaped like `JobBackend`. -/
structure PVCCreateBackend : Type where
  create : PersistentVolumeClaim → PersistentVolumeClaim × Option KError
  get : String → String → Except KError PersistentVolumeClaim

/-- `CreatePVC` (client.go:114-128), same shape as `CreateJob` with context
string `could not create PVC`. -/
def CreatePVC (b : PVCCreateBackend) (pvc0 : PersistentVolumeClaim) :
    Except KError PersistentVolumeClaim :=
  let cr := b.create pvc0
  match cr.2 with
  | some e =>
    if ¬ e.isAlreadyExists then Except.error (KError.wrapped "could not create PVC" e)
    else
      match b.get cr.1.ns cr.1.name with
      | Except.error e2 => Except.error e2
      | Except.ok p => Except.ok p
  | none =>
    match b.get cr.1.ns cr.1.name with
    | Except.error e2 => Except.error e2
    | Except.ok p => Except.ok p

/-- `GetJob` (client.go:43-49): passes the backend's Get result through
unchanged (no wrapping). -/
def GetJob (getResult : Except KError Job) : Except KError Job :=
  match getResult with
  | Except.error e => Except.error e
  | Except.ok j => Except.ok j

/-- `GetPV` (client.go:75-81). -/
def GetPV (getResult : Except KError PersistentVolume) : Except KError PersistentVolume :=
  match getResult with
  | Except.error e => Except.error e
  | Except.ok v => Except.ok v

/-- `GetPVC` (client.go:130-137). -/
def GetPVC (getResult : Except KError PersistentVolumeClaim) :
    Except KError PersistentVolumeClaim :=
  match getResult with
  | Except.error e => Except.error e
  | Except.ok v => Except.ok v

/-- `GetNamespace` (client.go:182-188). -/
def GetNamespace (getResult : Except KError Namespace) : Except KError Namespace :=
  match getResult with
  | Except.error e => Except.error e
  | Except.ok v => Except.ok v

/-- `DeleteJob` (client.go:51-57): `err != nil && IsNotFound(err)` is
normalized to success; anything else (including `nil`) is returned as-is.
The argument is the backend Delete call's result (`none` = no error). -/
def DeleteJob (deleteResult : Option KError) : Option KError :=
  match deleteResult with
  | some e => if e.isNotFound then none else some e
  | none => none

/-- `DeletePod` (client.go:67-73), same normalization as `DeleteJob`. -/
def DeletePod (deleteResult : Option KError) : Option KError :=
  match deleteResult with
  | some e => if e.isNotFound then none else some e
  | none => none

/-- `DeletePVC` (client.go:148-150): returns the backend Delete call's result
unchanged — there is no NotFound normalization in the source. -/
def DeletePVC (deleteResult : Option KError) : Option KError :=
  deleteResult

/-- `ListPods` (client.go:59-65): on success returns `p.Items`, on failure
the backend's error. -/
def ListPods (listResult : Except KError PodList) : Except KError (List Pod) :=
  match listResult with
  | Except.error e => Except.error e
  | Except.ok p => Except.ok p.items

/-- `ListPVCs` (client.go:139-146). -/
def ListPVCs (listResult : Except KError PersistentVolumeClaimList) :
    Except KError (List PersistentVolumeClaim) :=
  match listResult with
  | Except.error e => Except.error e
  | Except.ok p => Except.ok p.items

/-- `ListNamespaces` (client.go:190-196). -/
def ListNamespaces (listResult : Except KError NamespaceList) :
    Except KError (List Namespace) :=
  match listResult with
  | Except.error e => Except.error e
  | Except.ok n => Except.ok n.items

/-- A sample caller-side PV. -/
def demoPV : PersistentVolume := ⟨"pv1", "0", []⟩

/-- A sample caller-supplied mutation: set label `a` to `b`. -/
def demoMut (pv : PersistentVolume) : PersistentVolume :=
  { pv with labels := [("a", "b")] }

/-- A PV backend that serves the `i`-th fetch with resource version
`toString i`, rejects the first update attempt with a conflict, and accepts
every later attempt by echoing the submitted entity. -/
def demoPVBackend : PVBackend where
  get := fun i _ => Except.ok ⟨"pv1", toString i, []⟩
  update := fun i x => if i = 0 then Except.error (KError.conflict "stale") else Except.ok x

/-- A PV backend whose every Get fails with a plain transport error. -/
def failGetPVBackend : PVBackend where
  get := fun _ _ => Except.error (KError.other "boom")
  update := fun _ x => Except.ok x

/-- A namespace backend whose every Get fails with a plain transport error. -/
def failGetNSBackend : NamespaceBackend where
  get := fun _ _ => Except.error (KError.other "boom")
  update := fun _ x => Except.ok x

/-- A PV backend whose first fetch succeeds, whose updates always conflict,
and whose retry fetches fail with a conflict-classified error. -/
def conflictGetPVBackend : PVBackend where
  get := fun i _ =>
    if i = 0 then Except.ok ⟨"pv1", "1", []⟩
    else Except.error (KError.conflict "the object has been modified")
  update := fun _ _ => Except.error (KError.conflict "stale")

/-- A Job backend reproducing the orchestration client's convention that the
value returned alongside a `Create` error is a fresh empty object: on every
create it reports AlreadyExists and hands back the zero Job. Only the real
coordinates `team-a/job-a` are fetchable. -/
def emptyOnErrJobBackend : JobBackend where
  create := fun _ => (⟨"", "", "", []⟩, some (KError.alreadyExists "jobs job-a already exists"))
  get := fun nsp nm =>
    if nsp = "team-a" ∧ nm = "job-a" then Except.ok ⟨"job-a", "team-a", "7", []⟩
    else Except.error (KError.notFound "jobs not found")

/-- A Job backend that reports AlreadyExists but echoes the caller's entity
back as the value, so the re-fetch targets the caller's coordinates. -/
def echoJobBackend : JobBackend where
  create := fun j => (j, some (KError.alreadyExists "jobs job-a already exists"))
  get := fun nsp nm =>
    if nsp = "team-a" ∧ nm = "job-a" then Except.ok ⟨"job-a", "team-a", "7", []⟩
    else Except.error (KError.notFound "jobs not found")

@[simp]
theorem submittedList_nil {κ ε : Type} : submittedList ([] : List (Event κ ε)) = [] := rfl

@[simp]
theorem submittedList_cons_fetch {κ ε : Type} (k : κ) (r : Except KError ε)
    (tr : List (Event κ ε)) : submittedList (Event.fetch k r :: tr) = submittedList tr := rfl

@[simp]
theorem submittedList_cons_submit {κ ε : Type} (s : ε) (r : Except KError ε)
    (tr : List (Event κ ε)) :
    submittedList (Event.submit s r :: tr) = s :: submittedList tr := rfl

@[simp]
theorem fetchCount_nil {κ ε : Type} : fetchCount ([] : List (Event κ ε)) = 0 := rfl

@[simp]
theorem fetchCount_cons_fetch {κ ε : Type} (k : κ) (r : Except KError ε)
    (tr : List (Event κ ε)) : fetchCount (Event.fetch k r :: tr) = fetchCount tr + 1 := rfl

@[simp]
theorem fetchCount_cons_submit {κ ε : Type} (s : ε) (r : Except KError ε)
    (tr : List (Event κ ε)) : fetchCount (Event.submit s r :: tr) = fetchCount tr := rfl

@[simp]
theorem submitCount_nil {κ ε : Type} : submitCount ([] : List (Event κ ε)) = 0 := rfl

@[simp]
theorem submitCount_cons_fetch {κ ε : Type} (k : κ) (r : Except KError ε)
    (tr : List (Event κ ε)) : submitCount (Event.fetch k r :: tr) = submitCount tr := rfl

@[simp]
theorem submitCount_cons_submit {κ ε : Type} (s : ε) (r : Except KError ε)
    (tr : List (Event κ ε)) : submitCount (Event.submit s r :: tr) = submitCount tr + 1 := rfl

/-- Convergence of the retry loop under a backend that answers every fetch
(the `i`-th with entity `ent i`), rejects the first `N` update attempts with
the conflict error `cErr`, and accepts the `N`-th attempt by returning
`srv x` for the submitted entity `x`.  Starting at attempt `j ≤ N` with the
mutated `j`-th fetch, the loop returns the backend's answer to the final
submission, submits exactly the once-mutated fetches `j..N`, and performs
`N - j` further fetches and `N + 1 - j` submissions. -/
theorem retryLoop_conv {κ ε : Type} (g : Nat → κ → Except KError ε)
    (u : Nat → ε → Except KError ε) (key : ε → κ) (f : ε → ε)
    (N : Nat) (ent : Nat → ε) (cErr : KError) (srv : ε → ε)
    (Hg : ∀ i k, g i k = Except.ok (ent i))
    (Huc : ∀ i x, i < N → u i x = Except.error cErr)
    (Hc : cErr.isConflict = true)
    (Hok : ∀ x, u N x = Except.ok (srv x)) :
    ∀ (fuel j : Nat), j ≤ N → N - j < fuel →
      (retryLoop g u key f (f (ent j)) (j + 1) j fuel).1 = Outcome.ok (srv (f (ent N))) ∧
      submittedList (retryLoop g u key f (f (ent j)) (j + 1) j fuel).2
        = (List.range' j (N + 1 - j)).map (fun i => f (ent i)) ∧
      fetchCount (retryLoop g u key f (f (ent j)) (j + 1) j fuel).2 = N - j ∧
      submitCount (retryLoop g u key f (f (ent j)) (j + 1) j fuel).2 = N + 1 - j := by
  intro fuel
  induction fuel with
  | zero => intro j hjN hfuel; omega
  | succ n ih =>
    intro j hjN hfuel
    rcases Nat.lt_or_ge j N with hj | hj
    · have hu : u j (f (ent j)) = Except.error cErr := Huc j _ hj
      have hg : g (j + 1) (key (f (ent j))) = Except.ok (ent (j + 1)) := Hg _ _
      have hstep : retryLoop g u key f (f (ent j)) (j + 1) j (n + 1)
          = ((retryLoop g u key f (f (ent (j + 1))) (j + 2) (j + 1) n).1,
             Event.submit (f (ent j)) (Except.error cErr)
               :: Event.fetch (key (f (ent j))) (Except.ok (ent (j + 1)))
               :: (retryLoop g u key f (f (ent (j + 1))) (j + 2) (j + 1) n).2) := by
        simp only [retryLoop, hu, hg, Hc, if_true]
      obtain ⟨ih1, ih2, ih3, ih4⟩ := ih (j + 1) (by omega) (by omega)
      have hrange : N + 1 - j = (N - j) + 1 := by omega
      have hrange2 : N + 1 - (j + 1) = N - j := by omega
      have hrange3 : N - j = (N - (j + 1)) + 1 := by omega
      rw [hstep]
      refine ⟨ih1, ?_, ?_, ?_⟩
      · simp only [submittedList_cons_submit, submittedList_cons_fetch, ih2,
          hrange, hrange2, List.range']
        simp
      · simp only [fetchCount_cons_submit, fetchCount_cons_fetch, ih3, hrange2]
        omega
      · simp only [submitCount_cons_submit, submitCount_cons_fetch, ih4, hrange2]
        omega
    · have hjeq : j = N := by omega
      subst hjeq
      have hstep : retryLoop g u key f (f (ent j)) (j + 1) j (n + 1)
          = (Outcome.ok (srv (f (ent j))),
             [Event.submit (f (ent j)) (Except.ok (srv (f (ent j))))]) := by
        simp only [retryLoop, Hok]
      rw [hstep]
      have h1 : j + 1 - j = 1 := by omega
      refine ⟨rfl, ?_, by simp, by simp⟩
      simp [h1, List.range']

/-- Top-level convergence of the update-with-retry pattern under the
`N`-conflicts-then-accept backend of `retryLoop_conv`. -/
theorem updateWithRetry_conv {κ ε : Type} (g : Nat → κ → Except KError ε)
    (u : Nat → ε → Except KError ε) (key : ε → κ) (f : ε → ε)
    (N : Nat) (ent : Nat → ε) (cErr : KError) (srv : ε → ε) (ent0 : ε) (fuel : Nat)
    (Hg : ∀ i k, g i k = Except.ok (ent i))
    (Huc : ∀ i x, i < N → u i x = Except.error cErr)
    (Hc : cErr.isConflict = true)
    (Hok : ∀ x, u N x = Except.ok (srv x))
    (Hfuel : N < fuel) :
    (updateWithRetry g u key f ent0 fuel).1 = Outcome.ok (srv (f (ent N))) ∧
    submittedList (updateWithRetry g u key f ent0 fuel).2
      = (List.range (N + 1)).map (fun i => f (ent i)) ∧
    fetchCount (updateWithRetry g u key f ent0 fuel).2 = N + 1 ∧
    submitCount (updateWithRetry g u key f ent0 fuel).2 = N + 1 := by
  have h0 : g 0 (key ent0) = Except.ok (ent 0) := Hg _ _
  have hmain := retryLoop_conv g u key f N ent cErr srv Hg Huc Hc Hok fuel 0
    (Nat.zero_le N) (by omega)
  have hstep : updateWithRetry g u key f ent0 fuel
      = ((retryLoop g u key f (f (ent 0)) 1 0 fuel).1,
         Event.fetch (key ent0) (Except.ok (ent 0))
           :: (retryLoop g u key f (f (ent 0)) 1 0 fuel).2) := by
    simp only [updateWithRetry, h0]
  rw [hstep]
  obtain ⟨h1, h2, h3, h4⟩ := hmain
  refine ⟨h1, ?_, ?_, ?_⟩
  · simp only [submittedList_cons_fetch, h2, List.range_eq_range', Nat.sub_zero]
  · simp only [fetchCount_cons_fetch, h3]; omega
  · simp only [submitCount_cons_fetch, h4]; omega

/-- A failing initial fetch aborts at once: the operation returns the fetch
error wrapped with the fixed context string, and the trace holds the single
failed fetch — no mutation and no update attempt happened. -/
theorem updateWithRetry_initialFetchErr {κ ε : Type} (g : Nat → κ → Except KError ε)
    (u : Nat → ε → Except KError ε) (key : ε → κ) (f : ε → ε) (ent0 : ε) (fuel : Nat)
    (e : KError) (h : g 0 (key ent0) = Except.error e) :
    updateWithRetry g u key f ent0 fuel
      = (Outcome.err (KError.wrapped "could not get PVC to update" e),
         [Event.fetch (key ent0) (Except.error e)]) := by
  simp only [updateWithRetry, h]

/-- The caller's entity enters the computation only through its key: entities
with equal keys give identical results and identical traces. -/
theorem updateWithRetry_key_only {κ ε : Type} (g : Nat → κ → Except KError ε)
    (u : Nat → ε → Except KError ε) (key : ε → κ) (f : ε → ε) (fuel : Nat)
    (ent0 ent1 : ε) (h : key ent0 = key ent1) :
    updateWithRetry g u key f ent0 fuel = updateWithRetry g u key f ent1 fuel := by
  simp only [updateWithRetry, h]

/-- Under a backend that answers every fetch and rejects every update with a
conflict, the loop never finishes, whatever the fuel. -/
theorem retryLoop_perpetual {κ ε : Type} (g : Nat → κ → Except KError ε)
    (u : Nat → ε → Except KError ε) (key : ε → κ) (f : ε → ε)
    (Hu : ∀ i x, ∃ e, u i x = Except.error e ∧ e.isConflict = true)
    (Hg : ∀ i k, ∃ v, g i k = Except.ok v) :
    ∀ (fuel : Nat) (cur : ε) (gi ui : Nat),
      (retryLoop g u key f cur gi ui fuel).1 = Outcome.fuelOut := by
  intro fuel
  induction fuel with
  | zero => intro cur gi ui; rfl
  | succ n ih =>
    intro cur gi ui
    obtain ⟨e, hu, hc⟩ := Hu ui cur
    obtain ⟨v, hg⟩ := Hg gi (key cur)
    simp only [retryLoop, hu, hg, hc, if_true]
    exact ih (f v) (gi + 1) (ui + 1)

/-- If the backend's `M`-th update attempt never answers with a conflict,
the loop finishes (success, surfaced error — but not fuel exhaustion) within
`M - ui + 1` iterations. -/
theorem retryLoop_term {κ ε : Type} (g : Nat → κ → Except KError ε)
    (u : Nat → ε → Except KError ε) (key : ε → κ) (f : ε → ε) (M : Nat)
    (H : ∀ x e, u M x = Except.error e → e.isConflict = false) :
    ∀ (fuel : Nat) (cur : ε) (gi ui : Nat), ui ≤ M → M - ui < fuel →
      (retryLoop g u key f cur gi ui fuel).1 ≠ Outcome.fuelOut := by
  intro fuel
  induction fuel with
  | zero => intro cur gi ui h1 h2; omega
  | succ n ih =>
    intro cur gi ui h1 h2
    rcases hu : u ui cur with e | updated
    · by_cases hc : e.isConflict = true
      · have hne : ui ≠ M := by
          intro hEq
          subst hEq
          have hf := H cur e hu
          rw [hf] at hc
          cases hc
        rcases hg : g gi (key cur) with e2 | nxt
        · simp only [retryLoop, hu, hg, hc, if_true]
          intro hco; cases hco
        · simp only [retryLoop, hu, hg, hc, if_true]
          exact ih (f nxt) (gi + 1) (ui + 1) (by omega) (by omega)
      · simp only [retryLoop, hu, if_neg hc]
        intro hco; cases hco
    · simp only [retryLoop, hu]
      intro hco; cases hco

/-- Inside the loop, submissions outnumber fetches by zero or one: each
iteration is exactly one update attempt followed by at most one re-fetch. -/
theorem retryLoop_counts {κ ε : Type} (g : Nat → κ → Except KError ε)
    (u : Nat → ε → Except KError ε) (key : ε → κ) (f : ε → ε) :
    ∀ (fuel : Nat) (cur : ε) (gi ui : Nat),
      submitCount (retryLoop g u key f cur gi ui fuel).2
          = fetchCount (retryLoop g u key f cur gi ui fuel).2 ∨
      submitCount (retryLoop g u key f cur gi ui fuel).2
          = fetchCount (retryLoop g u key f cur gi ui fuel).2 + 1 := by
  intro fuel
  induction fuel with
  | zero => intro cur gi ui; left; rfl
  | succ n ih =>
    intro cur gi ui
    rcases hu : u ui cur with e | updated
    · by_cases hc : e.isConflict = true
      · rcases hg : g gi (key cur) with e2 | nxt
        · simp only [retryLoop, hu, hg, hc, if_true]
          left; rfl
        · simp only [retryLoop, hu, hg, hc, if_true]
          rcases ih (f nxt) (gi + 1) (ui + 1) with h | h <;>
            simp only [submitCount_cons_submit, submitCount_cons_fetch,
              fetchCount_cons_submit, fetchCount_cons_fetch, h] <;> simp
      · simp only [retryLoop, hu, if_neg hc]
        right; rfl
    · simp only [retryLoop, hu]
      right; rfl

/-- Where a failed submission can sit in a loop trace: a conflict-rejected
submission is always followed immediately by a re-fetch of the submitted
entity's key (the loop retries), while a submission rejected with any
non-conflict error is the final event and its error is the loop's result
(the loop aborts at once). -/
theorem retryLoop_submit_cases {κ ε : Type} (g : Nat → κ → Except KError ε)
    (u : Nat → ε → Except KError ε) (key : ε → κ) (f : ε → ε) :
    ∀ (fuel : Nat) (cur : ε) (gi ui : Nat) (pre : List (Event κ ε)) (s : ε) (e : KError)
      (post : List (Event κ ε)),
      (retryLoop g u key f cur gi ui fuel).2 = pre ++ Event.submit s (Except.error e) :: post →
      (e.isConflict = true → ∃ r2 post2, post = Event.fetch (key s) r2 :: post2) ∧
      (e.isConflict = false →
        post = [] ∧ (retryLoop g u key f cur gi ui fuel).1 = Outcome.err e) := by
  intro fuel
  induction fuel with
  | zero =>
    intro cur gi ui pre s e post h
    simp [retryLoop] at h
  | succ n ih =>
    intro cur gi ui pre s e post h
    rcases hu : u ui cur with e0 | updated
    · by_cases hc : e0.isConflict = true
      · rcases hg : g gi (key cur) with e2 | nxt
        · have hstep : retryLoop g u key f cur gi ui (n + 1)
              = (Outcome.err e2,
                 [Event.submit cur (Except.error e0),
                  Event.fetch (key cur) (Except.error e2)]) := by
            simp only [retryLoop, hu, hg, hc, if_true]
          rw [hstep] at h ⊢
          rcases pre with _ | ⟨a, _ | ⟨b, pre3⟩⟩
          · simp only [List.nil_append, List.cons.injEq, Event.submit.injEq,
              Except.error.injEq] at h
            obtain ⟨⟨hs, he⟩, hpost⟩ := h
            subst hs; subst he; subst hpost
            constructor
            · intro _
              exact ⟨Except.error e2, [], rfl⟩
            · intro hcf
              rw [hcf] at hc; cases hc
          · simp only [List.cons_append, List.nil_append, List.cons.injEq] at h
            rcases h with ⟨_, hfs, _⟩
            cases hfs
          · simp only [List.cons_append, List.cons.injEq] at h
            rcases h with ⟨_, _, hnil⟩
            rcases List.append_eq_nil.mp hnil.symm with ⟨_, hcons⟩
            cases hcons
        · have hstep : retryLoop g u key f cur gi ui (n + 1)
              = ((retryLoop g u key f (f nxt) (gi + 1) (ui + 1) n).1,
                 Event.submit cur (Except.error e0)
                   :: Event.fetch (key cur) (Except.ok nxt)
                   :: (retryLoop g u key f (f nxt) (gi + 1) (ui + 1) n).2) := by
            simp only [retryLoop, hu, hg, hc, if_true]
          rw [hstep] at h ⊢
          rcases pre with _ | ⟨a, _ | ⟨b, pre3⟩⟩
          · simp only [List.nil_append, List.cons.injEq, Event.submit.injEq,
              Except.error.injEq] at h
            obtain ⟨⟨hs, he⟩, hpost⟩ := h
            subst hs; subst he
            constructor
            · intro _
              exact ⟨Except.ok nxt, _, hpost.symm⟩
            · intro hcf
              rw [hcf] at hc; cases hc
          · simp only [List.cons_append, List.nil_append, List.cons.injEq] at h
            rcases h with ⟨_, hfs, _⟩
            cases hfs
          · simp only [List.cons_append, List.cons.injEq] at h
            rcases h with ⟨_, _, htail⟩
            exact ih (f nxt) (gi + 1) (ui + 1) pre3 s e post htail
      · have hcf : e0.isConflict = false := by
          cases hcb : e0.isConflict
          · rfl
          · exact absurd hcb hc
        have hstep : retryLoop g u key f cur gi ui (n + 1)
            = (Outcome.err e0, [Event.submit cur (Except.error e0)]) := by
          simp only [retryLoop, hu, if_neg hc]
        rw [hstep] at h ⊢
        rcases pre with _ | ⟨a, pre2⟩
        · simp only [List.nil_append, List.cons.injEq, Event.submit.injEq,
            Except.error.injEq] at h
          obtain ⟨⟨hs, he⟩, hpost⟩ := h
          subst hs; subst he; subst hpost
          constructor
          · intro hct
            rw [hct] at hcf; cases hcf
          · intro _
            exact ⟨rfl, rfl⟩
        · simp only [List.cons_append, List.cons.injEq] at h
          rcases h with ⟨_, hnil⟩
          rcases List.append_eq_nil.mp hnil.symm with ⟨_, hcons⟩
          cases hcons
    · have hstep : retryLoop g u key f cur gi ui (n + 1)
          = (Outcome.ok updated, [Event.submit cur (Except.ok updated)]) := by
        simp only [retryLoop, hu]
      rw [hstep] at h ⊢
      rcases pre with _ | ⟨a, pre2⟩
      · simp only [List.nil_append, List.cons.injEq, Event.submit.injEq] at h
        obtain ⟨⟨_, hok⟩, _⟩ := h
        cases hok
      · simp only [List.cons_append, List.cons.injEq] at h
        rcases h with ⟨_, hnil⟩
        rcases List.append_eq_nil.mp hnil.symm with ⟨_, hcons⟩
        cases hcons

/-- A failed re-fetch inside the loop is always the final event, and its
error is exactly the loop's result (returned unwrapped). -/
theorem retryLoop_fetchErr {κ ε : Type} (g : Nat → κ → Except KError ε)
    (u : Nat → ε → Except KError ε) (key : ε → κ) (f : ε → ε) :
    ∀ (fuel : Nat) (cur : ε) (gi ui : Nat) (pre : List (Event κ ε)) (k : κ) (e : KError)
      (post : List (Event κ ε)),
      (retryLoop g u key f cur gi ui fuel).2 = pre ++ Event.fetch k (Except.error e) :: post →
      post = [] ∧ (retryLoop g u key f cur gi ui fuel).1 = Outcome.err e := by
  intro fuel
  induction fuel with
  | zero =>
    intro cur gi ui pre k e post h
    simp [retryLoop] at h
  | succ n ih =>
    intro cur gi ui pre k e post h
    rcases hu : u ui cur with e0 | updated
    · by_cases hc : e0.isConflict = true
      · rcases hg : g gi (key cur) with e2 | nxt
        · have hstep : retryLoop g u key f cur gi ui (n + 1)
              = (Outcome.err e2,
                 [Event.submit cur (Except.error e0),
                  Event.fetch (key cur) (Except.error e2)]) := by
            simp only [retryLoop, hu, hg, hc, if_true]
          rw [hstep] at h ⊢
          rcases pre with _ | ⟨a, _ | ⟨b, pre3⟩⟩
          · simp only [List.nil_append, List.cons.injEq] at h
            rcases h with ⟨hfs, _⟩
            cases hfs
          · simp only [List.cons_append, List.nil_append, List.cons.injEq,
              Event.fetch.injEq, Except.error.injEq] at h
            rcases h with ⟨_, ⟨_, he⟩, hpost⟩
            subst he; subst hpost
            exact ⟨rfl, rfl⟩
          · simp only [List.cons_append, List.cons.injEq] at h
            rcases h with ⟨_, _, hnil⟩
            rcases List.append_eq_nil.mp hnil.symm with ⟨_, hcons⟩
            cases hcons
        · have hstep : retryLoop g u key f cur gi ui (n + 1)
              = ((retryLoop g u key f (f nxt) (gi + 1) (ui + 1) n).1,
                 Event.submit cur (Except.error e0)
                   :: Event.fetch (key cur) (Except.ok nxt)
                   :: (retryLoop g u key f (f nxt) (gi + 1) (ui + 1) n).2) := by
            simp only [retryLoop, hu, hg, hc, if_true]
          rw [hstep] at h ⊢
          rcases pre with _ | ⟨a, _ | ⟨b, pre3⟩⟩
          · simp only [List.nil_append, List.cons.injEq] at h
            rcases h with ⟨hfs, _⟩
            cases hfs
          · simp only [List.cons_append, List.nil_append, List.cons.injEq,
              Event.fetch.injEq] at h
            rcases h with ⟨_, ⟨_, hok⟩, _⟩
            cases hok
          · simp only [List.cons_append, List.cons.injEq] at h
            rcases h with ⟨_, _, htail⟩
            exact ih (f nxt) (gi + 1) (ui + 1) pre3 k e post htail
      · have hstep : retryLoop g u key f cur gi ui (n + 1)
            = (Outcome.err e0, [Event.submit cur (Except.error e0)]) := by
          simp only [retryLoop, hu, if_neg hc]
        rw [hstep] at h ⊢
        rcases pre with _ | ⟨a, pre2⟩
        · simp only [List.nil_append, List.cons.injEq] at h
          rcases h with ⟨hfs, _⟩
          cases hfs
        · simp only [List.cons_append, List.cons.injEq] at h
          rcases h with ⟨_, hnil⟩
          rcases List.append_eq_nil.mp hnil.symm with ⟨_, hcons⟩
          cases hcons
    · have hstep : retryLoop g u key f cur gi ui (n + 1)
          = (Outcome.ok updated, [Event.submit cur (Except.ok updated)]) := by
        simp only [retryLoop, hu]
      rw [hstep] at h ⊢
      rcases pre with _ | ⟨a, pre2⟩
      · simp only [List.nil_append, List.cons.injEq] at h
        rcases h with ⟨hfs, _⟩
        cases hfs
      · simp only [List.cons_append, List.cons.injEq] at h
        rcases h with ⟨_, hnil⟩
        rcases List.append_eq_nil.mp hnil.symm with ⟨_, hcons⟩
        cases hcons

/-- If the loop surfaces a conflict-classified error, that error came from a
re-fetch, not from an update attempt: the trace ends with the failed fetch
carrying exactly that error. -/
theorem retryLoop_err_conflict_fetch {κ ε : Type} (g : Nat → κ → Except KError ε)
    (u : Nat → ε → Except KError ε) (key : ε → κ) (f : ε → ε) :
    ∀ (fuel : Nat) (cur : ε) (gi ui : Nat) (e : KError),
      (retryLoop g u key f cur gi ui fuel).1 = Outcome.err e → e.isConflict = true →
      ∃ pre k, (retryLoop g u key f cur gi ui fuel).2 = pre ++ [Event.fetch k (Except.error e)] := by
  intro fuel
  induction fuel with
  | zero =>
    intro cur gi ui e h _
    cases h
  | succ n ih =>
    intro cur gi ui e h hconf
    rcases hu : u ui cur with e0 | updated
    · by_cases hc : e0.isConflict = true
      · rcases hg : g gi (key cur) with e2 | nxt
        · have hstep : retryLoop g u key f cur gi ui (n + 1)
              = (Outcome.err e2,
                 [Event.submit cur (Except.error e0),
                  Event.fetch (key cur) (Except.error e2)]) := by
            simp only [retryLoop, hu, hg, hc, if_true]
          rw [hstep] at h ⊢
          obtain he2 : e2 = e := by cases h; rfl
          subst he2
          exact ⟨[Event.submit cur (Except.error e0)], key cur, rfl⟩
        · have hstep : retryLoop g u key f cur gi ui (n + 1)
              = ((retryLoop g u key f (f nxt) (gi + 1) (ui + 1) n).1,
                 Event.submit cur (Except.error e0)
                   :: Event.fetch (key cur) (Except.ok nxt)
                   :: (retryLoop g u key f (f nxt) (gi + 1) (ui + 1) n).2) := by
            simp only [retryLoop, hu, hg, hc, if_true]
          rw [hstep] at h ⊢
          obtain ⟨pre, k, hpre⟩ := ih (f nxt) (gi + 1) (ui + 1) e h hconf
          refine ⟨Event.submit cur (Except.error e0)
            :: Event.fetch (key cur) (Except.ok nxt) :: pre, k, ?_⟩
          simp only [List.cons_append, hpre]
      · have hstep : retryLoop g u key f cur gi ui (n + 1)
            = (Outcome.err e0, [Event.submit cur (Except.error e0)]) := by
          simp only [retryLoop, hu, if_neg hc]
        rw [hstep] at h
        obtain he0 : e0 = e := by cases h; rfl
        subst he0
        rw [hconf] at hc
        exact absurd rfl hc
    · have hstep : retryLoop g u key f cur gi ui (n + 1)
          = (Outcome.ok updated, [Event.submit cur (Except.ok updated)]) := by
        simp only [retryLoop, hu]
      rw [hstep] at h
      cases h

/-- Freshness inside the loop: when the loop is entered with `f v` for a
fetched entity `v`, every submission in its trace is either the very first
event (submitting `f v`) or is `f w` for the fetched entity `w` of the fetch
event immediately before it. The mutation is applied once per fetch, never
accumulated. -/
theorem retryLoop_fresh {κ ε : Type} (g : Nat → κ → Except KError ε)
    (u : Nat → ε → Except KError ε) (key : ε → κ) (f : ε → ε) :
    ∀ (fuel : Nat) (v : ε) (gi ui : Nat) (pre : List (Event κ ε)) (s : ε)
      (r : Except KError ε) (post : List (Event κ ε)),
      (retryLoop g u key f (f v) gi ui fuel).2 = pre ++ Event.submit s r :: post →
      (pre = [] ∧ s = f v) ∨
      ∃ pre2 k w, pre = pre2 ++ [Event.fetch k (Except.ok w)] ∧ s = f w := by
  intro fuel
  induction fuel with
  | zero =>
    intro v gi ui pre s r post h
    simp [retryLoop] at h
  | succ n ih =>
    intro v gi ui pre s r post h
    rcases hu : u ui (f v) with e0 | updated
    · by_cases hc : e0.isConflict = true
      · rcases hg : g gi (key (f v)) with e2 | nxt
        · have hstep : (retryLoop g u key f (f v) gi ui (n + 1)).2
              = [Event.submit (f v) (Except.error e0),
                 Event.fetch (key (f v)) (Except.error e2)] := by
            simp only [retryLoop, hu, hg, hc, if_true]
          rw [hstep] at h
          rcases pre with _ | ⟨a, _ | ⟨b, pre3⟩⟩
          · simp only [List.nil_append, List.cons.injEq, Event.submit.injEq] at h
            exact Or.inl ⟨rfl, h.1.1.symm⟩
          · simp only [List.cons_append, List.nil_append, List.cons.injEq] at h
            rcases h with ⟨_, hfs, _⟩
            cases hfs
          · simp only [List.cons_append, List.cons.injEq] at h
            rcases h with ⟨_, _, hnil⟩
            rcases List.append_eq_nil.mp hnil.symm with ⟨_, hcons⟩
            cases hcons
        · have hstep : (retryLoop g u key f (f v) gi ui (n + 1)).2
              = Event.submit (f v) (Except.error e0)
                  :: Event.fetch (key (f v)) (Except.ok nxt)
                  :: (retryLoop g u key f (f nxt) (gi + 1) (ui + 1) n).2 := by
            simp only [retryLoop, hu, hg, hc, if_true]
          rw [hstep] at h
          rcases pre with _ | ⟨a, _ | ⟨b, pre3⟩⟩
          · simp only [List.nil_append, List.cons.injEq, Event.submit.injEq] at h
            exact Or.inl ⟨rfl, h.1.1.symm⟩
          · simp only [List.cons_append, List.nil_append, List.cons.injEq] at h
            rcases h with ⟨_, hfs, _⟩
            cases hfs
          · simp only [List.cons_append, List.cons.injEq] at h
            rcases h with ⟨ha, hb, htail⟩
            rcases ih nxt (gi + 1) (ui + 1) pre3 s r post htail with ⟨hnil, hs⟩ | ⟨pre2, k, w, hpre, hs⟩
            · subst hnil
              refine Or.inr ⟨[a], key (f v), nxt, ?_, hs⟩
              rw [hb]
              rfl
            · refine Or.inr ⟨a :: b :: pre2, k, w, ?_, hs⟩
              rw [hpre]
              rfl
      · have hstep : (retryLoop g u key f (f v) gi ui (n + 1)).2
            = [Event.submit (f v) (Except.error e0)] := by
          simp only [retryLoop, hu, if_neg hc]
        rw [hstep] at h
        rcases pre with _ | ⟨a, pre2⟩
        · simp only [List.nil_append, List.cons.injEq, Event.submit.injEq] at h
          exact Or.inl ⟨rfl, h.1.1.symm⟩
        · simp only [List.cons_append, List.cons.injEq] at h
          rcases h with ⟨_, hnil⟩
          rcases List.append_eq_nil.mp hnil.symm with ⟨_, hcons⟩
          cases hcons
    · have hstep : (retryLoop g u key f (f v) gi ui (n + 1)).2
          = [Event.submit (f v) (Except.ok updated)] := by
        simp only [retryLoop, hu]
      rw [hstep] at h
      rcases pre with _ | ⟨a, pre2⟩
      · simp only [List.nil_append, List.cons.injEq, Event.submit.injEq] at h
        exact Or.inl ⟨rfl, h.1.1.symm⟩
      · simp only [List.cons_append, List.cons.injEq] at h
        rcases h with ⟨_, hnil⟩
        rcases List.append_eq_nil.mp hnil.symm with ⟨_, hcons⟩
        cases hcons

/-- Top-level version of `retryLoop_submit_cases`: a submission rejected with
a conflict is retried (next event is a re-fetch of the submitted entity's
key); one rejected with any other error is the final event and the operation
returns exactly that error. -/
theorem updateWithRetry_submit_cases {κ ε : Type} (g : Nat → κ → Except KError ε)
    (u : Nat → ε → Except KError ε) (key : ε → κ) (f : ε → ε) (ent0 : ε) (fuel : Nat)
    (pre : List (Event κ ε)) (s : ε) (e : KError) (post : List (Event κ ε))
    (h : (updateWithRetry g u key f ent0 fuel).2 = pre ++ Event.submit s (Except.error e) :: post) :
    (e.isConflict = true → ∃ r2 post2, post = Event.fetch (key s) r2 :: post2) ∧
    (e.isConflict = false →
      post = [] ∧ (updateWithRetry g u key f ent0 fuel).1 = Outcome.err e) := by
  rcases h0 : g 0 (key ent0) with e1 | ent1
  · rw [updateWithRetry_initialFetchErr g u key f ent0 fuel e1 h0] at h
    rcases pre with _ | ⟨a, pre2⟩
    · simp only [List.nil_append, List.cons.injEq] at h
      rcases h with ⟨hfs, _⟩
      cases hfs
    · simp only [List.cons_append, List.cons.injEq] at h
      rcases h with ⟨_, hnil⟩
      rcases List.append_eq_nil.mp hnil.symm with ⟨_, hcons⟩
      cases hcons
  · have hstep : updateWithRetry g u key f ent0 fuel
        = ((retryLoop g u key f (f ent1) 1 0 fuel).1,
           Event.fetch (key ent0) (Except.ok ent1)
             :: (retryLoop g u key f (f ent1) 1 0 fuel).2) := by
      simp only [updateWithRetry, h0]
    rw [hstep] at h ⊢
    rcases pre with _ | ⟨a, pre2⟩
    · simp only [List.nil_append, List.cons.injEq] at h
      rcases h with ⟨hfs, _⟩
      cases hfs
    · simp only [List.cons_append, List.cons.injEq] at h
      rcases h with ⟨_, htail⟩
      exact retryLoop_submit_cases g u key f fuel (f ent1) 1 0 pre2 s e post htail

/-- Top-level version of `retryLoop_fetchErr`: any failed fetch is the final
event; the operation returns its error wrapped with the fixed context string
when it was the initial fetch, and unwrapped when it was a retry fetch. -/
theorem updateWithRetry_fetchErr {κ ε : Type} (g : Nat → κ → Except KError ε)
    (u : Nat → ε → Except KError ε) (key : ε → κ) (f : ε → ε) (ent0 : ε) (fuel : Nat)
    (pre : List (Event κ ε)) (k : κ) (e : KError) (post : List (Event κ ε))
    (h : (updateWithRetry g u key f ent0 fuel).2 = pre ++ Event.fetch k (Except.error e) :: post) :
    post = [] ∧
    ((pre = [] ∧ (updateWithRetry g u key f ent0 fuel).1
        = Outcome.err (KError.wrapped "could not get PVC to update" e)) ∨
     (pre ≠ [] ∧ (updateWithRetry g u key f ent0 fuel).1 = Outcome.err e)) := by
  rcases h0 : g 0 (key ent0) with e1 | ent1
  · rw [updateWithRetry_initialFetchErr g u key f ent0 fuel e1 h0] at h ⊢
    rcases pre with _ | ⟨a, pre2⟩
    · simp only [List.nil_append, List.cons.injEq, Event.fetch.injEq,
        Except.error.injEq] at h
      rcases h with ⟨⟨_, he⟩, hpost⟩
      subst he; subst hpost
      exact ⟨rfl, Or.inl ⟨rfl, rfl⟩⟩
    · simp only [List.cons_append, List.cons.injEq] at h
      rcases h with ⟨_, hnil⟩
      rcases List.append_eq_nil.mp hnil.symm with ⟨_, hcons⟩
      cases hcons
  · have hstep : updateWithRetry g u key f ent0 fuel
        = ((retryLoop g u key f (f ent1) 1 0 fuel).1,
           Event.fetch (key ent0) (Except.ok ent1)
             :: (retryLoop g u key f (f ent1) 1 0 fuel).2) := by
      simp only [updateWithRetry, h0]
    rw [hstep] at h ⊢
    rcases pre with _ | ⟨a, pre2⟩
    · simp only [List.nil_append, List.cons.injEq, Event.fetch.injEq] at h
      rcases h with ⟨⟨_, hok⟩, _⟩
      cases hok
    · simp only [List.cons_append, List.cons.injEq] at h
      rcases h with ⟨_, htail⟩
      obtain ⟨hpost, hres⟩ := retryLoop_fetchErr g u key f fuel (f ent1) 1 0 pre2 k e post htail
      exact ⟨hpost, Or.inr ⟨List.cons_ne_nil a pre2, hres⟩⟩

/-- Top-level version of `retryLoop_err_conflict_fetch`: if the operation
surfaces a conflict-classified error, the trace ends with a failed fetch
whose error is the surfaced one, possibly wrapped with the fixed context
string when it was the initial fetch. Update attempts never cause a
conflict-classified error to be surfaced. -/
theorem updateWithRetry_err_conflict_fetch {κ ε : Type} (g : Nat → κ → Except KError ε)
    (u : Nat → ε → Except KError ε) (key : ε → κ) (f : ε → ε) (ent0 : ε) (fuel : Nat)
    (e : KError) (h : (updateWithRetry g u key f ent0 fuel).1 = Outcome.err e)
    (hconf : e.isConflict = true) :
    ∃ pre k e0, (updateWithRetry g u key f ent0 fuel).2 = pre ++ [Event.fetch k (Except.error e0)] ∧
      (e = e0 ∨ e = KError.wrapped "could not get PVC to update" e0) := by
  rcases h0 : g 0 (key ent0) with e1 | ent1
  · rw [updateWithRetry_initialFetchErr g u key f ent0 fuel e1 h0] at h ⊢
    obtain he : KError.wrapped "could not get PVC to update" e1 = e := by cases h; rfl
    exact ⟨[], key ent0, e1, rfl, Or.inr he.symm⟩
  · have hstep : updateWithRetry g u key f ent0 fuel
        = ((retryLoop g u key f (f ent1) 1 0 fuel).1,
           Event.fetch (key ent0) (Except.ok ent1)
             :: (retryLoop g u key f (f ent1) 1 0 fuel).2) := by
      simp only [updateWithRetry, h0]
    rw [hstep] at h ⊢
    obtain ⟨pre, k, hpre⟩ := retryLoop_err_conflict_fetch g u key f fuel (f ent1) 1 0 e h hconf
    refine ⟨Event.fetch (key ent0) (Except.ok ent1) :: pre, k, e, ?_, Or.inl rfl⟩
    simp only [List.cons_append, hpre]

/-- Top-level freshness: every submission in the trace is the mutation `f`
of the fetched entity of the fetch event immediately before it. In
particular `f` is applied exactly once per fetched snapshot, and the
caller's entity is never submitted. -/
theorem updateWithRetry_fresh {κ ε : Type} (g : Nat → κ → Except KError ε)
    (u : Nat → ε → Except KError ε) (key : ε → κ) (f : ε → ε) (ent0 : ε) (fuel : Nat)
    (pre : List (Event κ ε)) (s : ε) (r : Except KError ε) (post : List (Event κ ε))
    (h : (updateWithRetry g u key f ent0 fuel).2 = pre ++ Event.submit s r :: post) :
    ∃ pre2 k w, pre = pre2 ++ [Event.fetch k (Except.ok w)] ∧ s = f w := by
  rcases h0 : g 0 (key ent0) with e1 | ent1
  · rw [updateWithRetry_initialFetchErr g u key f ent0 fuel e1 h0] at h
    rcases pre with _ | ⟨a, pre2⟩
    · simp only [List.nil_append, List.cons.injEq] at h
      rcases h with ⟨hfs, _⟩
      cases hfs
    · simp only [List.cons_append, List.cons.injEq] at h
      rcases h with ⟨_, hnil⟩
      rcases List.append_eq_nil.mp hnil.symm with ⟨_, hcons⟩
      cases hcons
  · have hstep : updateWithRetry g u key f ent0 fuel
        = ((retryLoop g u key f (f ent1) 1 0 fuel).1,
           Event.fetch (key ent0) (Except.ok ent1)
             :: (retryLoop g u key f (f ent1) 1 0 fuel).2) := by
      simp only [updateWithRetry, h0]
    rw [hstep] at h
    rcases pre with _ | ⟨a, pre2⟩
    · simp only [List.nil_append, List.cons.injEq] at h
      rcases h with ⟨hfs, _⟩
      cases hfs
    · simp only [List.cons_append, List.cons.injEq] at h
      rcases h with ⟨ha, htail⟩
      rcases retryLoop_fresh g u key f fuel ent1 1 0 pre2 s r post htail with
        ⟨hnil, hs⟩ | ⟨pre3, k, w, hpre, hs⟩
      · subst hnil
        refine ⟨[], key ent0, ent1, ?_, hs⟩
        rw [ha]
        rfl
      · refine ⟨a :: pre3, k, w, ?_, hs⟩
        rw [hpre]
        rfl

/-- Top-level termination: if the backend's `M`-th update attempt never
answers with a conflict, fuel `M + 1` is enough for the operation to finish
(with success or a surfaced error). -/
theorem updateWithRetry_term {κ ε : Type} (g : Nat → κ → Except KError ε)
    (u : Nat → ε → Except KError ε) (key : ε → κ) (f : ε → ε) (ent0 : ε) (fuel M : Nat)
    (H : ∀ x e, u M x = Except.error e → e.isConflict = false)
    (hfuel : M < fuel) :
    (updateWithRetry g u key f ent0 fuel).1 ≠ Outcome.fuelOut := by
  rcases h0 : g 0 (key ent0) with e1 | ent1
  · rw [updateWithRetry_initialFetchErr g u key f ent0 fuel e1 h0]
    intro hco; cases hco
  · have hstep : updateWithRetry g u key f ent0 fuel
        = ((retryLoop g u key f (f ent1) 1 0 fuel).1,
           Event.fetch (key ent0) (Except.ok ent1)
             :: (retryLoop g u key f (f ent1) 1 0 fuel).2) := by
      simp only [updateWithRetry, h0]
    rw [hstep]
    exact retryLoop_term g u key f M H fuel (f ent1) 1 0 (Nat.zero_le M) (by omega)

/-- Top-level perpetual conflict: under a backend that answers every fetch
and rejects every update with a conflict, the operation never finishes,
whatever the fuel. -/
theorem updateWithRetry_perpetual {κ ε : Type} (g : Nat → κ → Except KError ε)
    (u : Nat → ε → Except KError ε) (key : ε → κ) (f : ε → ε) (ent0 : ε)
    (Hu : ∀ i x, ∃ e, u i x = Except.error e ∧ e.isConflict = true)
    (Hg : ∀ i k, ∃ v, g i k = Except.ok v) :
    ∀ fuel : Nat, (updateWithRetry g u key f ent0 fuel).1 = Outcome.fuelOut := by
  intro fuel
  obtain ⟨ent1, h0⟩ := Hg 0 (key ent0)
  have hstep : updateWithRetry g u key f ent0 fuel
      = ((retryLoop g u key f (f ent1) 1 0 fuel).1,
         Event.fetch (key ent0) (Except.ok ent1)
           :: (retryLoop g u key f (f ent1) 1 0 fuel).2) := by
    simp only [updateWithRetry, h0]
  rw [hstep]
  exact retryLoop_perpetual g u key f Hu Hg fuel (f ent1) 1 0

/-- At the top level (counting the initial fetch), each cycle pairs one fetch
with one update attempt: the counts differ by at most one, with fetches never
behind. -/
theorem updateWithRetry_counts {κ ε : Type} (g : Nat → κ → Except KError ε)
    (u : Nat → ε → Except KError ε) (key : ε → κ) (f : ε → ε) (ent0 : ε) (fuel : Nat) :
    submitCount (updateWithRetry g u key f ent0 fuel).2
        ≤ fetchCount (updateWithRetry g u key f ent0 fuel).2 ∧
    fetchCount (updateWithRetry g u key f ent0 fuel).2
        ≤ submitCount (updateWithRetry g u key f ent0 fuel).2 + 1 := by
  rcases h0 : g 0 (key ent0) with e | ent1
  · rw [updateWithRetry_initialFetchErr g u key f ent0 fuel e h0]
    constructor <;> simp
  · simp only [updateWithRetry, h0]
    rcases retryLoop_counts g u key f fuel (f ent1) 1 0 with h | h <;>
      constructor <;>
      simp only [submitCount_cons_fetch, fetchCount_cons_fetch, h] <;> omega

/-- `CreateJob` when the backend reports AlreadyExists and the re-fetch (at
the coordinates of the value Create returned) succeeds. -/
theorem CreateJob_alreadyExists_ok (b : JobBackend) (j : Job) (e : KError) (canon : Job)
    (hc : (b.create j).2 = some e) (ha : e.isAlreadyExists = true)
    (hg : b.get (b.create j).1.ns (b.create j).1.name = Except.ok canon) :
    CreateJob b j = Except.ok canon := by
  simp [CreateJob, hc, ha, hg]

/-- `CreateJob` when the backend reports AlreadyExists but the re-fetch
fails: the fetch error is returned. -/
theorem CreateJob_alreadyExists_getErr (b : JobBackend) (j : Job) (e e2 : KError)
    (hc : (b.create j).2 = some e) (ha : e.isAlreadyExists = true)
    (hg : b.get (b.create j).1.ns (b.create j).1.name = Except.error e2) :
    CreateJob b j = Except.error e2 := by
  simp [CreateJob, hc, ha, hg]

/-- `CreateJob` when the backend's create fails with anything other than
AlreadyExists: the error is wrapped with `could not create Job`. -/
theorem CreateJob_otherErr (b : JobBackend) (j : Job) (e : KError)
    (hc : (b.create j).2 = some e) (ha : e.isAlreadyExists = false) :
    CreateJob b j = Except.error (KError.wrapped "could not create Job" e) := by
  simp [CreateJob, hc, ha]

/-- `CreatePVC` when the backend reports AlreadyExists and the re-fetch
succeeds. -/
theorem CreatePVC_alreadyExists_ok (b : PVCCreateBackend) (p : PersistentVolumeClaim)
    (e : KError) (canon : PersistentVolumeClaim)
    (hc : (b.create p).2 = some e) (ha : e.isAlreadyExists = true)
    (hg : b.get (b.create p).1.ns (b.create p).1.name = Except.ok canon) :
    CreatePVC b p = Except.ok canon := by
  simp [CreatePVC, hc, ha, hg]

/-- `CreatePVC` when the backend reports AlreadyExists but the re-fetch
fails. -/
theorem CreatePVC_alreadyExists_getErr (b : PVCCreateBackend) (p : PersistentVolumeClaim)
    (e e2 : KError)
    (hc : (b.create p).2 = some e) (ha : e.isAlreadyExists = true)
    (hg : b.get (b.create p).1.ns (b.create p).1.name = Except.error e2) :
    CreatePVC b p = Except.error e2 := by
  simp [CreatePVC, hc, ha, hg]

/-- `CreatePVC` when the backend's create fails with anything other than
AlreadyExists. -/
theorem CreatePVC_otherErr (b : PVCCreateBackend) (p : PersistentVolumeClaim) (e : KError)
    (hc : (b.create p).2 = some e) (ha : e.isAlreadyExists = false) :
    CreatePVC b p = Except.error (KError.wrapped "could not create PVC" e) := by
  simp [CreatePVC, hc, ha]

/-- C1: for each update operation (UpdatePV, UpdatePVC, UpdateNamespace), if
the backend answers every fetch (the `i`-th with `ent i`) and returns a
Conflict error on exactly the first `N` update attempts and then accepts
(returning `srv x` for the submitted `x`), the operation succeeds after
exactly `N + 1` fetch/mutate/submit cycles (`N + 1` fetches and `N + 1`
submissions), the mutation is applied exactly once per freshly fetched
entity — the `i`-th submission is `f (ent i)`, never an accumulated
mutation — and the returned entity is the backend's response to the
successful update. -/
theorem claim_C1 :
    (∀ (b : PVBackend) (pv : PersistentVolume)
       (f : PersistentVolume → PersistentVolume) (N fuel : Nat)
       (ent : Nat → PersistentVolume) (cErr : KError)
       (srv : PersistentVolume → PersistentVolume),
       (∀ i k, b.get i k = Except.ok (ent i)) →
       (∀ i x, i < N → b.update i x = Except.error cErr) →
       cErr.isConflict = true →
       (∀ x, b.update N x = Except.ok (srv x)) →
       N < fuel →
       (UpdatePV b pv f fuel).1 = Outcome.ok (srv (f (ent N))) ∧
       submittedList (UpdatePV b pv f fuel).2
           = (List.range (N + 1)).map (fun i => f (ent i)) ∧
       fetchCount (UpdatePV b pv f fuel).2 = N + 1 ∧
       submitCount (UpdatePV b pv f fuel).2 = N + 1) ∧
    (∀ (b : PVCBackend) (pvc : PersistentVolumeClaim)
       (f : PersistentVolumeClaim → PersistentVolumeClaim) (N fuel : Nat)
       (ent : Nat → PersistentVolumeClaim) (cErr : KError)
       (srv : PersistentVolumeClaim → PersistentVolumeClaim),
       (∀ i k, b.get i k = Except.ok (ent i)) →
       (∀ i x, i < N → b.update i x = Except.error cErr) →
       cErr.isConflict = true →
       (∀ x, b.update N x = Except.ok (srv x)) →
       N < fuel →
       (UpdatePVC b pvc f fuel).1 = Outcome.ok (srv (f (ent N))) ∧
       submittedList (UpdatePVC b pvc f fuel).2
           = (List.range (N + 1)).map (fun i => f (ent i)) ∧
       fetchCount (UpdatePVC b pvc f fuel).2 = N + 1 ∧
       submitCount (UpdatePVC b pvc f fuel).2 = N + 1) ∧
    (∀ (b : NamespaceBackend) (ns0 : Namespace)
       (f : Namespace → Namespace) (N fuel : Nat)
       (ent : Nat → Namespace) (cErr : KError)
       (srv : Namespace → Namespace),
       (∀ i k, b.get i k = Except.ok (ent i)) →
       (∀ i x, i < N → b.update i x = Except.error cErr) →
       cErr.isConflict = true →
       (∀ x, b.update N x = Except.ok (srv x)) →
       N < fuel →
       (UpdateNamespace b ns0 f fuel).1 = Outcome.ok (srv (f (ent N))) ∧
       submittedList (UpdateNamespace b ns0 f fuel).2
           = (List.range (N + 1)).map (fun i => f (ent i)) ∧
       fetchCount (UpdateNamespace b ns0 f fuel).2 = N + 1 ∧
       submitCount (UpdateNamespace b ns0 f fuel).2 = N + 1) := by
  refine ⟨?_, ?_, ?_⟩ <;>
    exact fun b ent0 f N fuel ent cErr srv Hg Huc Hc Hok Hfuel =>
      updateWithRetry_conv b.get b.update _ f N ent cErr srv ent0 fuel Hg Huc Hc Hok Hfuel

/-- C1 witness: `demoPVBackend` conflicts exactly once (`N = 1`) then echoes
the submitted entity; with fuel 3 the operation succeeds in two cycles,
submitting the once-mutated first and second fetches. -/
theorem claim_C1_witness :
    (UpdatePV demoPVBackend demoPV demoMut 3).1
        = Outcome.ok (id (demoMut ⟨"pv1", toString 1, []⟩)) ∧
    submittedList (UpdatePV demoPVBackend demoPV demoMut 3).2
        = (List.range 2).map (fun i => demoMut ⟨"pv1", toString i, []⟩) ∧
    fetchCount (UpdatePV demoPVBackend demoPV demoMut 3).2 = 2 ∧
    submitCount (UpdatePV demoPVBackend demoPV demoMut 3).2 = 2 :=
  claim_C1.1 demoPVBackend demoPV demoMut 1 3 (fun i => ⟨"pv1", toString i, []⟩)
    (KError.conflict "stale") id
    (fun _ _ => rfl)
    (fun i x h => by
      have hi : i = 0 := by omega
      subst hi
      rfl)
    rfl
    (fun x => rfl)
    (by omega)

/-- C2: for each update operation, any non-conflict failure aborts the
operation immediately. A failing initial fetch produces exactly one trace
event and surfaces the error (wrapped with the operation's context string);
a submission rejected with a non-conflict error is the trace's final event
and its error is the result; any failing fetch is the trace's final event
and its error is the result (wrapped when it was the initial fetch); and a
submission followed by anything was rejected with a Conflict and is
immediately followed by a re-fetch — only conflicts from an update attempt
cause a retry. -/
theorem claim_C2 :
    (∀ (b : PVBackend) (pv : PersistentVolume)
       (f : PersistentVolume → PersistentVolume) (fuel : Nat),
       (∀ e, b.get 0 pv.name = Except.error e →
         UpdatePV b pv f fuel
           = (Outcome.err (KError.wrapped "could not get PVC to update" e),
              [Event.fetch pv.name (Except.error e)])) ∧
       (∀ pre s e post,
         (UpdatePV b pv f fuel).2 = pre ++ Event.submit s (Except.error e) :: post →
         (e.isConflict = true → ∃ r2 post2, post = Event.fetch s.name r2 :: post2) ∧
         (e.isConflict = false →
           post = [] ∧ (UpdatePV b pv f fuel).1 = Outcome.err e)) ∧
       (∀ pre k e post,
         (UpdatePV b pv f fuel).2 = pre ++ Event.fetch k (Except.error e) :: post →
         post = [] ∧
         ((pre = [] ∧ (UpdatePV b pv f fuel).1
             = Outcome.err (KError.wrapped "could not get PVC to update" e)) ∨
          (pre ≠ [] ∧ (UpdatePV b pv f fuel).1 = Outcome.err e)))) ∧
    (∀ (b : PVCBackend) (pvc : PersistentVolumeClaim)
       (f : PersistentVolumeClaim → PersistentVolumeClaim) (fuel : Nat),
       (∀ e, b.get 0 (pvc.ns, pvc.name) = Except.error e →
         UpdatePVC b pvc f fuel
           = (Outcome.err (KError.wrapped "could not get PVC to update" e),
              [Event.fetch (pvc.ns, pvc.name) (Except.error e)])) ∧
       (∀ pre s e post,
         (UpdatePVC b pvc f fuel).2 = pre ++ Event.submit s (Except.error e) :: post →
         (e.isConflict = true → ∃ r2 post2, post = Event.fetch (s.ns, s.name) r2 :: post2) ∧
         (e.isConflict = false →
           post = [] ∧ (UpdatePVC b pvc f fuel).1 = Outcome.err e)) ∧
       (∀ pre k e post,
         (UpdatePVC b pvc f fuel).2 = pre ++ Event.fetch k (Except.error e) :: post →
         post = [] ∧
         ((pre = [] ∧ (UpdatePVC b pvc f fuel).1
             = Outcome.err (KError.wrapped "could not get PVC to update" e)) ∨
          (pre ≠ [] ∧ (UpdatePVC b pvc f fuel).1 = Outcome.err e)))) ∧
    (∀ (b : NamespaceBackend) (ns0 : Namespace)
       (f : Namespace → Namespace) (fuel : Nat),
       (∀ e, b.get 0 ns0.name = Except.error e →
         UpdateNamespace b ns0 f fuel
           = (Outcome.err (KError.wrapped "could not get PVC to update" e),
              [Event.fetch ns0.name (Except.error e)])) ∧
       (∀ pre s e post,
         (UpdateNamespace b ns0 f fuel).2 = pre ++ Event.submit s (Except.error e) :: post →
         (e.isConflict = true → ∃ r2 post2, post = Event.fetch s.name r2 :: post2) ∧
         (e.isConflict = false →
           post = [] ∧ (UpdateNamespace b ns0 f fuel).1 = Outcome.err e)) ∧
       (∀ pre k e post,
         (UpdateNamespace b ns0 f fuel).2 = pre ++ Event.fetch k (Except.error e) :: post →
         post = [] ∧
         ((pre = [] ∧ (UpdateNamespace b ns0 f fuel).1
             = Outcome.err (KError.wrapped "could not get PVC to update" e)) ∨
          (pre ≠ [] ∧ (UpdateNamespace b ns0 f fuel).1 = Outcome.err e)))) := by
  refine ⟨?_, ?_, ?_⟩ <;>
    exact fun b ent0 f fuel =>
      ⟨fun e he => updateWithRetry_initialFetchErr b.get b.update _ f ent0 fuel e he,
       fun pre s e post h => updateWithRetry_submit_cases b.get b.update _ f ent0 fuel pre s e post h,
       fun pre k e post h => updateWithRetry_fetchErr b.get b.update _ f ent0 fuel pre k e post h⟩

/-- C2 witness: against a backend whose very first fetch fails with a plain
transport error, `UpdatePV` aborts at once with that error (wrapped) and its
trace is the single failed fetch. -/
theorem claim_C2_witness :
    UpdatePV failGetPVBackend demoPV demoMut 3
      = (Outcome.err (KError.wrapped "could not get PVC to update" (KError.other "boom")),
         [Event.fetch demoPV.name (Except.error (KError.other "boom"))]) :=
  (claim_C2.1 failGetPVBackend demoPV demoMut 3).1 (KError.other "boom") rfl

/-- C3 counterexample: the claim says every delete operation, DeletePVC
included, turns a NotFound from the backend into success; but `DeletePVC`
(client.go:148-150) forwards the backend's result unchanged, so a NotFound
is returned as an error, not as success. -/
theorem claim_C3_counterexample :
    DeletePVC (some (KError.notFound "persistentvolumeclaims pvc-1 not found")) ≠ none := by
  intro h
  cases h

/-- C3 (amended): `DeleteJob` and `DeletePod` treat a NotFound from the
backend's delete as success and return any other failure; `DeletePVC`
returns the backend's result unchanged, so for it a NotFound remains an
error. -/
theorem claim_C3 :
    (∀ e, DeleteJob (some e) = if e.isNotFound then none else some e) ∧
    DeleteJob none = none ∧
    (∀ e, DeletePod (some e) = if e.isNotFound then none else some e) ∧
    DeletePod none = none ∧
    (∀ r, DeletePVC r = r) :=
  ⟨fun _ => rfl, rfl, fun _ => rfl, rfl, fun _ => rfl⟩

/-- C4 counterexample: the claim says that when the backend's create reports
AlreadyExists the operation succeeds and re-fetches by the caller's name and
namespace. But `CreateJob` re-fetches by the coordinates of the value the
backend's Create returned (the Go code reassigns `job` before reading
`job.Namespace`/`job.Name`); with the orchestration client's convention of
returning an empty object alongside an error, the re-fetch targets `""/""`
and the operation fails even though the entity exists. -/
theorem claim_C4_counterexample :
    (emptyOnErrJobBackend.create ⟨"job-a", "team-a", "", []⟩).2
        = some (KError.alreadyExists "jobs job-a already exists") ∧
    CreateJob emptyOnErrJobBackend ⟨"job-a", "team-a", "", []⟩
        = Except.error (KError.notFound "jobs not found") := by
  exact ⟨rfl, rfl⟩

/-- C4 (amended): on AlreadyExists the create operations re-fetch by the
name and namespace of the entity value returned by the backend's create
call, not the caller's entity. When the backend's create echoes back an
entity with the caller's name and namespace, the claim's behaviour holds:
AlreadyExists is success and the server's canonical entity at the caller's
coordinates is returned; a failing re-fetch surfaces its error; and any
non-AlreadyExists create failure is returned wrapped with the operation's
context string. -/
theorem claim_C4 :
    (∀ (b : JobBackend) (j : Job),
      (b.create j).1.name = j.name → (b.create j).1.ns = j.ns →
      (∀ e canon, (b.create j).2 = some e → e.isAlreadyExists = true →
        b.get j.ns j.name = Except.ok canon → CreateJob b j = Except.ok canon) ∧
      (∀ e e2, (b.create j).2 = some e → e.isAlreadyExists = true →
        b.get j.ns j.name = Except.error e2 → CreateJob b j = Except.error e2) ∧
      (∀ e, (b.create j).2 = some e → e.isAlreadyExists = false →
        CreateJob b j = Except.error (KError.wrapped "could not create Job" e))) ∧
    (∀ (b : PVCCreateBackend) (p : PersistentVolumeClaim),
      (b.create p).1.name = p.name → (b.create p).1.ns = p.ns →
      (∀ e canon, (b.create p).2 = some e → e.isAlreadyExists = true →
        b.get p.ns p.name = Except.ok canon → CreatePVC b p = Except.ok canon) ∧
      (∀ e e2, (b.create p).2 = some e → e.isAlreadyExists = true →
        b.get p.ns p.name = Except.error e2 → CreatePVC b p = Except.error e2) ∧
      (∀ e, (b.create p).2 = some e → e.isAlreadyExists = false →
        CreatePVC b p = Except.error (KError.wrapped "could not create PVC" e))) := by
  constructor
  · intro b j h1 h2
    refine ⟨?_, ?_, ?_⟩
    · intro e canon hc ha hg
      exact CreateJob_alreadyExists_ok b j e canon hc ha (by rw [h1, h2]; exact hg)
    · intro e e2 hc ha hg
      exact CreateJob_alreadyExists_getErr b j e e2 hc ha (by rw [h1, h2]; exact hg)
    · intro e hc ha
      exact CreateJob_otherErr b j e hc ha
  · intro b p h1 h2
    refine ⟨?_, ?_, ?_⟩
    · intro e canon hc ha hg
      exact CreatePVC_alreadyExists_ok b p e canon hc ha (by rw [h1, h2]; exact hg)
    · intro e e2 hc ha hg
      exact CreatePVC_alreadyExists_getErr b p e e2 hc ha (by rw [h1, h2]; exact hg)
    · intro e hc ha
      exact CreatePVC_otherErr b p e hc ha

/-- C4 witness: a backend that reports AlreadyExists while echoing the
caller's entity makes the amended claim bite — the operation succeeds with
the canonical server entity at the caller's coordinates. -/
theorem claim_C4_witness :
    CreateJob echoJobBackend ⟨"job-a", "team-a", "", []⟩
      = Except.ok ⟨"job-a", "team-a", "7", []⟩ :=
  (claim_C4.1 echoJobBackend ⟨"job-a", "team-a", "", []⟩ rfl rfl).1
    (KError.alreadyExists "jobs job-a already exists") ⟨"job-a", "team-a", "7", []⟩
    rfl rfl rfl

/-- C5 counterexample: the claim says an error returned by an update
operation is never conflict-classified, whatever the backend does. But a
retry fetch's error is returned unchanged (client.go:103-106), so a backend
whose retry Get fails with a conflict-classified error makes `UpdatePV`
surface a Conflict to the caller. -/
theorem claim_C5_counterexample :
    (UpdatePV conflictGetPVBackend demoPV demoMut 3).1
        = Outcome.err (KError.conflict "the object has been modified") ∧
    (KError.conflict "the object has been modified").isConflict = true := by
  exact ⟨rfl, rfl⟩

/-- C5 (amended): conflict errors from update attempts are never surfaced —
they always drive a retry. If an update operation returns a
conflict-classified error, it came from a fetch: the trace ends with a
failed fetch whose error is the surfaced one (wrapped with the fixed context
string when the initial fetch failed). -/
theorem claim_C5 :
    (∀ (b : PVBackend) (pv : PersistentVolume)
       (f : PersistentVolume → PersistentVolume) (fuel : Nat) (e : KError),
       (UpdatePV b pv f fuel).1 = Outcome.err e → e.isConflict = true →
       ∃ pre k e0, (UpdatePV b pv f fuel).2 = pre ++ [Event.fetch k (Except.error e0)] ∧
         (e = e0 ∨ e = KError.wrapped "could not get PVC to update" e0)) ∧
    (∀ (b : PVCBackend) (pvc : PersistentVolumeClaim)
       (f : PersistentVolumeClaim → PersistentVolumeClaim) (fuel : Nat) (e : KError),
       (UpdatePVC b pvc f fuel).1 = Outcome.err e → e.isConflict = true →
       ∃ pre k e0, (UpdatePVC b pvc f fuel).2 = pre ++ [Event.fetch k (Except.error e0)] ∧
         (e = e0 ∨ e = KError.wrapped "could not get PVC to update" e0)) ∧
    (∀ (b : NamespaceBackend) (ns0 : Namespace)
       (f : Namespace → Namespace) (fuel : Nat) (e : KError),
       (UpdateNamespace b ns0 f fuel).1 = Outcome.err e → e.isConflict = true →
       ∃ pre k e0, (UpdateNamespace b ns0 f fuel).2 = pre ++ [Event.fetch k (Except.error e0)] ∧
         (e = e0 ∨ e = KError.wrapped "could not get PVC to update" e0)) := by
  refine ⟨?_, ?_, ?_⟩ <;>
    exact fun b ent0 f fuel e h hconf =>
      updateWithRetry_err_conflict_fetch b.get b.update _ f ent0 fuel e h hconf

/-- C5 witness: the surfaced conflict of `claim_C5_counterexample`'s backend
indeed came from a fetch — the trace ends with the failed retry fetch. -/
theorem claim_C5_witness :
    ∃ pre k e0,
      (UpdatePV conflictGetPVBackend demoPV demoMut 3).2
          = pre ++ [Event.fetch k (Except.error e0)] ∧
      (KError.conflict "the object has been modified" = e0 ∨
       KError.conflict "the object has been modified"
         = KError.wrapped "could not get PVC to update" e0) :=
  claim_C5.1 conflictGetPVBackend demoPV demoMut 3
    (KError.conflict "the object has been modified") rfl rfl

/-- C6: each list operation returns the backend's items on success — in
particular the empty list (success, not an error) when nothing is in
scope — and returns an error exactly when the backend's list call fails. -/
theorem claim_C6 :
    (ListPods (Except.ok ⟨[]⟩) = Except.ok [] ∧
     (∀ l, ListPods (Except.ok l) = Except.ok l.items) ∧
     (∀ e, ListPods (Except.error e) = Except.error e)) ∧
    (ListPVCs (Except.ok ⟨[]⟩) = Except.ok [] ∧
     (∀ l, ListPVCs (Except.ok l) = Except.ok l.items) ∧
     (∀ e, ListPVCs (Except.error e) = Except.error e)) ∧
    (ListNamespaces (Except.ok ⟨[]⟩) = Except.ok [] ∧
     (∀ l, ListNamespaces (Except.ok l) = Except.ok l.items) ∧
     (∀ e, ListNamespaces (Except.error e) = Except.error e)) :=
  ⟨⟨rfl, fun _ => rfl, fun _ => rfl⟩,
   ⟨rfl, fun _ => rfl, fun _ => rfl⟩,
   ⟨rfl, fun _ => rfl, fun _ => rfl⟩⟩

/-- C7: each update operation reads nothing from the caller's entity beyond
its name (and namespace where scoped): two calls whose entities agree on
those coordinates produce identical results and identical backend
interactions (the full result/trace pairs are equal). -/
theorem claim_C7 :
    (∀ (b : PVBackend) (f : PersistentVolume → PersistentVolume) (fuel : Nat)
       (pv1 pv2 : PersistentVolume), pv1.name = pv2.name →
       UpdatePV b pv1 f fuel = UpdatePV b pv2 f fuel) ∧
    (∀ (b : PVCBackend) (f : PersistentVolumeClaim → PersistentVolumeClaim) (fuel : Nat)
       (p1 p2 : PersistentVolumeClaim), p1.name = p2.name → p1.ns = p2.ns →
       UpdatePVC b p1 f fuel = UpdatePVC b p2 f fuel) ∧
    (∀ (b : NamespaceBackend) (f : Namespace → Namespace) (fuel : Nat)
       (n1 n2 : Namespace), n1.name = n2.name →
       UpdateNamespace b n1 f fuel = UpdateNamespace b n2 f fuel) := by
  refine ⟨?_, ?_, ?_⟩
  · intro b f fuel pv1 pv2 h
    exact updateWithRetry_key_only b.get b.update _ f fuel pv1 pv2 h
  · intro b f fuel p1 p2 h1 h2
    exact updateWithRetry_key_only b.get b.update _ f fuel p1 p2 (by rw [h1, h2])
  · intro b f fuel n1 n2 h
    exact updateWithRetry_key_only b.get b.update _ f fuel n1 n2 h

/-- C7 witness: two caller PVs sharing the name `pv1` but differing in
resource version and labels give byte-identical runs of `UpdatePV`. -/
theorem claim_C7_witness :
    UpdatePV demoPVBackend ⟨"pv1", "0", []⟩ demoMut 3
      = UpdatePV demoPVBackend ⟨"pv1", "999", [("x", "y")]⟩ demoMut 3 :=
  claim_C7.1 demoPVBackend demoMut 3 ⟨"pv1", "0", []⟩ ⟨"pv1", "999", [("x", "y")]⟩ rfl

/-- C8: each update operation's retry loop terminates whenever some update
attempt (say the `M`-th) is guaranteed not to answer with a conflict — fuel
beyond `M` never runs out; each iteration performs exactly one fetch paired
with one update attempt (the two trace counts differ by at most one, fetches
never behind); and under a backend that conflicts perpetually (and always
answers fetches) the loop runs unbounded: every finite fuel is exhausted. -/
theorem claim_C8 :
    (∀ (b : PVBackend) (pv : PersistentVolume)
       (f : PersistentVolume → PersistentVolume) (fuel M : Nat),
       ((∀ x e, b.update M x = Except.error e → e.isConflict = false) → M < fuel →
         (UpdatePV b pv f fuel).1 ≠ Outcome.fuelOut) ∧
       (submitCount (UpdatePV b pv f fuel).2 ≤ fetchCount (UpdatePV b pv f fuel).2 ∧
        fetchCount (UpdatePV b pv f fuel).2 ≤ submitCount (UpdatePV b pv f fuel).2 + 1) ∧
       ((∀ i x, ∃ e, b.update i x = Except.error e ∧ e.isConflict = true) →
        (∀ i k, ∃ v, b.get i k = Except.ok v) →
        (UpdatePV b pv f fuel).1 = Outcome.fuelOut)) ∧
    (∀ (b : PVCBackend) (pvc : PersistentVolumeClaim)
       (f : PersistentVolumeClaim → PersistentVolumeClaim) (fuel M : Nat),
       ((∀ x e, b.update M x = Except.error e → e.isConflict = false) → M < fuel →
         (UpdatePVC b pvc f fuel).1 ≠ Outcome.fuelOut) ∧
       (submitCount (UpdatePVC b pvc f fuel).2 ≤ fetchCount (UpdatePVC b pvc f fuel).2 ∧
        fetchCount (UpdatePVC b pvc f fuel).2 ≤ submitCount (UpdatePVC b pvc f fuel).2 + 1) ∧
       ((∀ i x, ∃ e, b.update i x = Except.error e ∧ e.isConflict = true) →
        (∀ i k, ∃ v, b.get i k = Except.ok v) →
        (UpdatePVC b pvc f fuel).1 = Outcome.fuelOut)) ∧
    (∀ (b : NamespaceBackend) (ns0 : Namespace)
       (f : Namespace → Namespace) (fuel M : Nat),
       ((∀ x e, b.update M x = Except.error e → e.isConflict = false) → M < fuel →
         (UpdateNamespace b ns0 f fuel).1 ≠ Outcome.fuelOut) ∧
       (submitCount (UpdateNamespace b ns0 f fuel).2
          ≤ fetchCount (UpdateNamespace b ns0 f fuel).2 ∧
        fetchCount (UpdateNamespace b ns0 f fuel).2
          ≤ submitCount (UpdateNamespace b ns0 f fuel).2 + 1) ∧
       ((∀ i x, ∃ e, b.update i x = Except.error e ∧ e.isConflict = true) →
        (∀ i k, ∃ v, b.get i k = Except.ok v) →
        (UpdateNamespace b ns0 f fuel).1 = Outcome.fuelOut)) := by
  refine ⟨?_, ?_, ?_⟩ <;>
    exact fun b ent0 f fuel M =>
      ⟨fun H hfuel => updateWithRetry_term b.get b.update _ f ent0 fuel M H hfuel,
       updateWithRetry_counts b.get b.update _ f ent0 fuel,
       fun Hu Hg => updateWithRetry_perpetual b.get b.update _ f ent0 Hu Hg fuel⟩

/-- C8 witness: `demoPVBackend` never conflicts on its second update attempt
(`M = 1`), so fuel 3 is enough for `UpdatePV` to finish. -/
theorem claim_C8_witness :
    (UpdatePV demoPVBackend demoPV demoMut 3).1 ≠ Outcome.fuelOut :=
  (claim_C8.1 demoPVBackend demoPV demoMut 3 1).1
    (fun x e he => by simp [demoPVBackend] at he) (by omega)

/-- C9 (code evaluation): the claim says surfaced errors are wrapped with
context identifying the failing operation and resource kind. The code
disagrees twice: `UpdateNamespace` and `UpdatePV` wrap their initial-fetch
errors with the literal `could not get PVC to update` — copy-pasted from the
PVC path, naming the wrong resource kind — and `GetJob` returns backend
errors with no context at all. -/
theorem claim_C9_code_eval :
    (UpdateNamespace failGetNSBackend ⟨"prod", "0", []⟩ id 3).1
        = Outcome.err (KError.wrapped "could not get PVC to update" (KError.other "boom")) ∧
    (UpdatePV failGetPVBackend demoPV id 3).1
        = Outcome.err (KError.wrapped "could not get PVC to update" (KError.other "boom")) ∧
    GetJob (Except.error (KError.other "boom")) = Except.error (KError.other "boom") := by
  exact ⟨rfl, rfl, rfl⟩

/-- C10: the caller's entity is never handed to the mutation function or to
the backend's update: every submission in an update operation's trace is the
mutation applied (once) to the entity delivered by the fetch event
immediately before it, so the mutation and the loop only ever touch fetched
copies. (In this pure embedding the caller's argument is a value, so the Go
code's in-place-mutation concern is exactly this trace property.) -/
theorem claim_C10 :
    (∀ (b : PVBackend) (pv : PersistentVolume)
       (f : PersistentVolume → PersistentVolume) (fuel : Nat) (pre : List _) (s : _)
       (r : Except KError PersistentVolume) (post : List _),
       (UpdatePV b pv f fuel).2 = pre ++ Event.submit s r :: post →
       ∃ pre2 k w, pre = pre2 ++ [Event.fetch k (Except.ok w)] ∧ s = f w) ∧
    (∀ (b : PVCBackend) (pvc : PersistentVolumeClaim)
       (f : PersistentVolumeClaim → PersistentVolumeClaim) (fuel : Nat) (pre : List _) (s : _)
       (r : Except KError PersistentVolumeClaim) (post : List _),
       (UpdatePVC b pvc f fuel).2 = pre ++ Event.submit s r :: post →
       ∃ pre2 k w, pre = pre2 ++ [Event.fetch k (Except.ok w)] ∧ s = f w) ∧
    (∀ (b : NamespaceBackend) (ns0 : Namespace)
       (f : Namespace → Namespace) (fuel : Nat) (pre : List _) (s : _)
       (r : Except KError Namespace) (post : List _),
       (UpdateNamespace b ns0 f fuel).2 = pre ++ Event.submit s r :: post →
       ∃ pre2 k w, pre = pre2 ++ [Event.fetch k (Except.ok w)] ∧ s = f w) := by
  refine ⟨?_, ?_, ?_⟩ <;>
    exact fun b ent0 f fuel pre s r post h =>
      updateWithRetry_fresh b.get b.update _ f ent0 fuel pre s r post h

/-- C10 witness: in the two-cycle run of `demoPVBackend`, the first
submission decomposes the trace after the initial fetch, and is the mutation
of that fetch's entity. -/
theorem claim_C10_witness :
    ∃ pre2 k w,
      [Event.fetch "pv1" (Except.ok (⟨"pv1", "0", []⟩ : PersistentVolume))]
          = pre2 ++ [Event.fetch k (Except.ok w)] ∧
      (⟨"pv1", "0", [("a", "b")]⟩ : PersistentVolume) = demoMut w :=
  claim_C10.1 demoPVBackend demoPV demoMut 2
    [Event.fetch "pv1" (Except.ok ⟨"pv1", "0", []⟩)]
    ⟨"pv1", "0", [("a", "b")]⟩ (Except.error (KError.conflict "stale"))
    [Event.fetch "pv1" (Except.ok ⟨"pv1", "1", []⟩),
     Event.submit ⟨"pv1", "1", [("a", "b")]⟩ (Except.ok ⟨"pv1", "1", [("a", "b")]⟩)]
    (by decide)
